import Mathlib

/-!
Verification of the SOC Report Review Tool's rule-evaluation engine.

The repository evaluates a compliance report (extracted to plain text)
against declarative rules.  Deterministic checkers (`backend.py`,
`validator.py`) do literal text matching; generative paths
(`app.py:check_rule_with_llm`, `backend/app.py:check_client_name_rule`)
send the document to an external text-generation service and normalize
its raw textual response into a verdict; summaries aggregate per-rule
verdicts (`app.py:upload_file`, `backend.py:upload_report`,
`backend/app.py:review_report`/`upload_report`).

This file shallowly embeds those functions.  Python strings are modelled
as `List Char` (wrapped in `String` at the boundaries); `re.findall` /
`re.search` calls whose patterns are `re.escape`d (hence literal) are
modelled as literal substring scans, and the two regexes built from
escaped section names are modelled by their alternation semantics.
`re.search` on a configuration-supplied pattern is modelled only for
patterns free of regex metacharacters (`literalPattern`); theorems about
the exact-match checker carry that restriction as a hypothesis.
Fallible Python code (raising `str.format`, `json.loads`, explicit
`raise`) is modelled with `Except`; `try/except` handlers are the
corresponding `match` on the `Except` value.  Floating-point values that
the claims treat only as exact decimals (confidence `0.0`, score
percentages) are modelled as `Rat`.
-/

namespace SOCReview

/-- The `{` character, written via its code point. -/
def lbrace : Char := Char.ofNat 123

/-- The `}` character, written via its code point. -/
def rbrace : Char := Char.ofNat 125

/-- Python `\s` for ASCII text: space, tab, newline, carriage return,
form feed, vertical tab. -/
def pyIsSpace (c : Char) : Bool :=
  c = ' ' || c = '\t' || c = '\n' || c = '\r' || c = Char.ofNat 12 || c = Char.ofNat 11

/-- ASCII lowercasing of a character list, modelling Python `str.lower()`
on the ASCII inputs the tool handles. -/
def lowerL (l : List Char) : List Char := l.map Char.toLower

/-- Python `str.strip()`: drop leading and trailing whitespace. -/
def pyStripL (l : List Char) : List Char :=
  ((l.dropWhile pyIsSpace).reverse.dropWhile pyIsSpace).reverse

/-- Does `needle` occur as a contiguous sublist of `hay`?  Models Python's
`in` operator on strings. -/
def sublistSearch (needle : List Char) : List Char → Bool
  | [] => needle.isPrefixOf []
  | c :: cs => needle.isPrefixOf (c :: cs) || sublistSearch needle cs

/-- Fuel-driven core of non-overlapping occurrence counting: at each
position, a match consumes the needle's length, otherwise one character.
Models `len(re.findall(re.escape(needle), hay))` for a non-empty needle. -/
def countOccsAux (needle : List Char) : Nat → List Char → Nat
  | 0, _ => 0
  | _ + 1, [] => 0
  | fuel + 1, c :: cs =>
    if needle.isPrefixOf (c :: cs) then
      1 + countOccsAux needle fuel (List.drop needle.length (c :: cs))
    else
      countOccsAux needle fuel cs

/-- Models `len(re.findall(re.escape(needle), hay, re.IGNORECASE))`: the number of
non-overlapping, case-insensitive occurrences of the literal `needle` in
`hay`.  An empty pattern matches at every position (`len(hay) + 1`). -/
def pyFindAllCount (needle hay : String) : Nat :=
  let n := lowerL needle.toList
  let h := lowerL hay.toList
  if n.isEmpty then h.length + 1 else countOccsAux n h.length h

/-- Split a character list at every newline, modelling both Python
`str.split('\n')` and the positions at which `re.MULTILINE`'s `^` anchors
(start of string and immediately after each `'\n'`). -/
def splitNl : List Char → List (List Char)
  | [] => [[]]
  | c :: cs =>
    if c = '\n' then [] :: splitNl cs
    else
      match splitNl cs with
      | [] => [[c]]
      | s :: rest => (c :: s) :: rest

/-- Fuel-driven split on every occurrence of a non-empty separator,
modelling Python `str.split(sep)`. -/
def pySplitAux (sep : List Char) : Nat → List Char → List (List Char)
  | 0, l => [l]
  | _ + 1, [] => [[]]
  | fuel + 1, c :: cs =>
    if sep.isPrefixOf (c :: cs) then
      [] :: pySplitAux sep fuel (List.drop sep.length (c :: cs))
    else
      match pySplitAux sep fuel cs with
      | [] => [[c]]
      | s :: rest => (c :: s) :: rest

/-- Python `str.split(sep)` for a non-empty separator. -/
def pySplit (sep l : List Char) : List (List Char) := pySplitAux sep l.length l

/-- Fuel-driven replacement of every occurrence of a non-empty pattern,
modelling Python `str.replace(pat, repl)`. -/
def pyReplaceAux (pat repl : List Char) : Nat → List Char → List Char
  | 0, l => l
  | _ + 1, [] => []
  | fuel + 1, c :: cs =>
    if pat.isPrefixOf (c :: cs) then
      repl ++ pyReplaceAux pat repl fuel (List.drop pat.length (c :: cs))
    else
      c :: pyReplaceAux pat repl fuel cs

/-- Python `str.replace(pat, repl)` for a non-empty pattern. -/
def pyReplace (pat repl l : List Char) : List Char := pyReplaceAux pat repl l.length l

/-- First case-insensitive occurrence of the literal `pat` in `txt`,
returning the matched slice of the original text (what `match.group(0)`
returns for an `re.IGNORECASE` search with an escaped/metacharacter-free
pattern).  `none` when there is no match. -/
def litFindAux (patLow : List Char) (plen : Nat) : List Char → Option (List Char)
  | [] => if patLow.isPrefixOf ([] : List Char) then some [] else none
  | c :: cs =>
    if patLow.isPrefixOf (lowerL (c :: cs)) then some (List.take plen (c :: cs))
    else litFindAux patLow plen cs

/-- Models `re.search(pattern, txt, re.IGNORECASE)` for a pattern with no regex
metacharacters: the first case-insensitive literal occurrence. -/
def litFind (pat txt : String) : Option String :=
  (litFindAux (lowerL pat.toList) pat.toList.length txt.toList).map fun l => String.mk l

/-- Does the pattern string contain no regex metacharacters?  `re.search`
on such a pattern is exactly a literal search; all exact-match theorems
below restrict to such patterns. -/
def literalPattern (p : String) : Bool :=
  p.toList.all fun c =>
    !(c = '\\' || c = '.' || c = '^' || c = '$' || c = '*' || c = '+' ||
      c = '?' || c = lbrace || c = rbrace || c = '[' || c = ']' ||
      c = '(' || c = ')' || c = '|')

/-- Index of the first occurrence of a character, Python `str.find`
(as `Option` instead of `-1`). -/
def firstIdxOf (c : Char) (l : List Char) : Option Nat :=
  l.findIdx? (· = c)

/-- Index of the last occurrence of a character, Python `str.rfind`
(as `Option` instead of `-1`). -/
def lastIdxOf (c : Char) (l : List Char) : Option Nat :=
  (l.reverse.findIdx? (· = c)).map fun i => l.length - 1 - i

/-! ## JSON values

A model of the Python objects produced by `json.loads`: `None`, `bool`,
numbers (exact rationals; the tool's claims only exercise exact decimal
values, so binary floating point is not modelled), `str`, `list`, `dict`.
-/

inductive Json where
  | null : Json
  | bool (b : Bool) : Json
  | num (q : Rat) : Json
  | str (s : String) : Json
  | arr (xs : List Json) : Json
  | obj (fields : List (String × Json)) : Json

/-- Dictionary lookup with Python's duplicate-key semantics for
`json.loads` (the last occurrence of a key wins). -/
def jlookup (k : String) (fields : List (String × Json)) : Option Json :=
  fields.foldl (fun acc p => if p.1 = k then some p.2 else acc) none

/-- Python truthiness of a JSON value. -/
def jsonTruthy : Json → Bool
  | .null => false
  | .bool b => b
  | .num q => q ≠ 0
  | .str s => s ≠ ""
  | .arr xs => !xs.isEmpty
  | .obj fs => !fs.isEmpty

/-! ## A JSON parser modelling `json.loads`

A fuel-driven recursive-descent parser for the JSON subset the tool's
generative responses use: literals, integer and simple decimal numbers,
strings with the common escapes, arrays and objects.  `json.loads`
rejects trailing non-whitespace after the top-level value; so does this
parser.  The claims below depend only on whether parsing succeeds or
fails, never on the error message. -/

/-- Skip JSON insignificant whitespace. -/
def jsonSkipWs (l : List Char) : List Char :=
  l.dropWhile fun c => c = ' ' || c = '\t' || c = '\n' || c = '\r'

/-- Parse a digit run into a natural number accumulator; returns the
value, the number of digits consumed and the rest. -/
def jsonDigits : List Char → Nat → Nat → Nat × Nat × List Char
  | [], acc, n => (acc, n, [])
  | c :: cs, acc, n =>
    if c.isDigit then jsonDigits cs (acc * 10 + (c.toNat - 48)) (n + 1)
    else (acc, n, c :: cs)

/-- Parse a JSON number (optional sign, integer part, optional fractional
part; exponents are not produced by the tool's prompts and are rejected). -/
def jsonParseNum (l : List Char) : Except String (Rat × List Char) :=
  let (sign, l1) : Rat × List Char :=
    match l with
    | '-' :: rest => (-1, rest)
    | _ => (1, l)
  match jsonDigits l1 0 0 with
  | (_, 0, _) => .error "Expecting value"
  | (ip, _, rest) =>
    match rest with
    | '.' :: rest2 =>
      match jsonDigits rest2 0 0 with
      | (_, 0, _) => .error "Expecting digits after decimal point"
      | (fp, nd, rest3) =>
        .ok (sign * ((ip : Rat) + (fp : Rat) / ((10 : Rat) ^ nd)), rest3)
    | _ => .ok (sign * (ip : Rat), rest)

/-- Parse the body of a JSON string after the opening quote. -/
def jsonParseStr : Nat → List Char → Except String (List Char × List Char)
  | 0, _ => .error "Unterminated string"
  | _ + 1, [] => .error "Unterminated string"
  | fuel + 1, c :: cs =>
    if c = '"' then .ok ([], cs)
    else if c = '\\' then
      match cs with
      | [] => .error "Unterminated string"
      | e :: cs2 =>
        let esc : Except String (Char × List Char) :=
          if e = '"' then .ok ('"', cs2)
          else if e = '\\' then .ok ('\\', cs2)
          else if e = '/' then .ok ('/', cs2)
          else if e = 'n' then .ok ('\n', cs2)
          else if e = 't' then .ok ('\t', cs2)
          else if e = 'r' then .ok ('\r', cs2)
          else if e = 'b' then .ok (Char.ofNat 8, cs2)
          else if e = 'f' then .ok (Char.ofNat 12, cs2)
          else .error "Invalid escape"
        match esc with
        | .error m => .error m
        | .ok (ch, rest2) =>
          match jsonParseStr fuel rest2 with
          | .error m => .error m
          | .ok (body, rest3) => .ok (ch :: body, rest3)
    else
      match jsonParseStr fuel cs with
      | .error m => .error m
      | .ok (body, rest2) => .ok (c :: body, rest2)

mutual

/-- Parse one JSON value. -/
def jsonParseVal : Nat → List Char → Except String (Json × List Char)
  | 0, _ => .error "Out of fuel"
  | fuel + 1, l =>
    match jsonSkipWs l with
    | [] => .error "Expecting value"
    | c :: cs =>
      if c = lbrace then jsonParseObj fuel (jsonSkipWs cs) []
      else if c = '[' then jsonParseArr fuel (jsonSkipWs cs) []
      else if c = '"' then
        match jsonParseStr (cs.length + 1) cs with
        | .error m => .error m
        | .ok (body, rest) => .ok (.str (String.mk body), rest)
      else if ['t', 'r', 'u', 'e'].isPrefixOf (c :: cs) then
        .ok (.bool true, (c :: cs).drop 4)
      else if ['f', 'a', 'l', 's', 'e'].isPrefixOf (c :: cs) then
        .ok (.bool false, (c :: cs).drop 5)
      else if ['n', 'u', 'l', 'l'].isPrefixOf (c :: cs) then
        .ok (.null, (c :: cs).drop 4)
      else
        match jsonParseNum (c :: cs) with
        | .error m => .error m
        | .ok (q, rest) => .ok (.num q, rest)

/-- Parse the members of a JSON object after the opening brace (or after a
comma), given the members parsed so far. -/
def jsonParseObj (fuel : Nat) (l : List Char) (acc : List (String × Json)) :
    Except String (Json × List Char) :=
  match fuel with
  | 0 => .error "Out of fuel"
  | fuel + 1 =>
    match l with
    | [] => .error "Unterminated object"
    | c :: cs =>
      if c = rbrace ∧ acc.isEmpty then .ok (.obj [], cs)
      else if c = '"' then
        match jsonParseStr (cs.length + 1) cs with
        | .error m => .error m
        | .ok (key, rest) =>
          match jsonSkipWs rest with
          | ':' :: rest2 =>
            match jsonParseVal fuel rest2 with
            | .error m => .error m
            | .ok (v, rest3) =>
              match jsonSkipWs rest3 with
              | ',' :: rest4 =>
                jsonParseObj fuel (jsonSkipWs rest4) (acc ++ [(String.mk key, v)])
              | d :: rest4 =>
                if d = rbrace then .ok (.obj (acc ++ [(String.mk key, v)]), rest4)
                else .error "Expecting comma"
              | [] => .error "Unterminated object"
          | _ => .error "Expecting colon"
      else .error "Expecting property name"

/-- Parse the elements of a JSON array after the opening bracket (or after
a comma), given the elements parsed so far. -/
def jsonParseArr (fuel : Nat) (l : List Char) (acc : List Json) :
    Except String (Json × List Char) :=
  match fuel with
  | 0 => .error "Out of fuel"
  | fuel + 1 =>
    match l with
    | [] => .error "Unterminated array"
    | c :: cs =>
      if c = ']' ∧ acc.isEmpty then .ok (.arr [], cs)
      else
        match jsonParseVal fuel (c :: cs) with
        | .error m => .error m
        | .ok (v, rest) =>
          match jsonSkipWs rest with
          | ',' :: rest2 => jsonParseArr fuel (jsonSkipWs rest2) (acc ++ [v])
          | ']' :: rest2 => .ok (.arr (acc ++ [v]), rest2)
          | _ => .error "Expecting comma"

end

/-- Models `json.loads(s)`: parse one JSON value and reject trailing
non-whitespace. -/
def parseJson (s : String) : Except String Json :=
  match jsonParseVal (s.toList.length + 1) s.toList with
  | .error m => .error m
  | .ok (v, rest) =>
    match jsonSkipWs rest with
    | [] => .ok v
    | _ => .error "Extra data"

/-! ## `app.py` — `check_rule_with_llm` response normalization

`src/app.py` lines 222–284: the raw generative response is stripped,
un-fenced, sliced to its outermost braces, sanitized, parsed as JSON and
mapped onto a verdict dict; `json.JSONDecodeError` and any other
exception are caught and turned into error verdicts. -/

/-- Models `str.lower()` as a `String` operation. -/
def pyLowerS (s : String) : String := String.mk (lowerL s.toList)

/-- Models `str.strip()` as a `String` operation. -/
def pyStripS (s : String) : String := String.mk (pyStripL s.toList)

/-- The `passed` field of the LLM verdict dict: the success path of
`check_rule_with_llm` always stores a canonical status string, while its
exception handlers store the Python boolean `False`. -/
inductive PassedVal where
  | ofBool (b : Bool) : PassedVal
  | ofStr (s : String) : PassedVal
deriving DecidableEq

/-- The dict returned by `check_rule_with_llm`
(`{'passed': ..., 'reason': ..., 'locations': ...}`). -/
structure LLMVerdict where
  passed : PassedVal
  reason : Json
  locations : Json

/-- Exceptions the normalization body can raise: `json.JSONDecodeError`
from `json.loads`, or any other exception (`ValueError` from the missing-
brace check, `AttributeError` when the parsed value is not a dict),
carrying `str(e)`. -/
inductive PyErr where
  | jsonDecode (msg : String) : PyErr
  | generic (msg : String) : PyErr

/-- Models `app.py` lines 225–230: markdown fence stripping.  If the text
contains `"```json"`, keep only what lies between the first such fence
and the next `"```"` and strip it; else if the text starts with `"```"`,
drop the first and last lines (when there are more than two), remove all
remaining backtick fences and strip. -/
def stripFences (t : List Char) : List Char :=
  if sublistSearch "```json".toList t then
    pyStripL ((pySplit "```".toList ((pySplit "```json".toList t).getD 1 [])).headD [])
  else if ("```".toList).isPrefixOf t then
    let lines := splitNl t
    let t1 := if lines.length > 2 then List.intercalate ['\n'] (lines.drop 1).dropLast else t
    pyStripL (pyReplace "```".toList [] t1)
  else t

/-- Models `app.py` lines 233–238: slice from the first `{` to the last `}`;
when no such span exists, `raise ValueError("No valid JSON found in
response")`. -/
def braceSlice (t : List Char) : Except String (List Char) :=
  match firstIdxOf lbrace t, lastIdxOf rbrace t with
  | some s, some e =>
    if s ≤ e then .ok ((t.drop s).take (e + 1 - s))
    else .error "No valid JSON found in response"
  | _, _ => .error "No valid JSON found in response"

/-- Models `app.py` line 241: `replace('\n', ' ').replace('\r', '').replace('\t', ' ')`. -/
def sanitizeWs (t : List Char) : List Char :=
  t.filterMap fun c =>
    if c = '\n' then some ' '
    else if c = '\r' then none
    else if c = '\t' then some ' '
    else some c

/-- Models `app.py` lines 243–244: truncate anything after the last `}` when a
`}` is present. -/
def truncAfterBrace (t : List Char) : List Char :=
  if sublistSearch [rbrace] t then
    match lastIdxOf rbrace t with
    | some e => t.take (e + 1)
    | none => t
  else t

/-- Models `app.py` lines 253–266: canonicalize the `passed` field's value.  A
string is lowercased and stripped and kept if it is one of the three
canonical statuses; otherwise the *unstripped* lowercased string is
compared against `'true'`/`'yes'` (yielding `"passed"`) and every other
string yields `"failed"`.  Boolean `True`/`False` map to
`"passed"`/`"failed"`; any other type yields `"failed"`. -/
def canonPassedValue : Json → String
  | .str s =>
    let t := pyStripS (pyLowerS s)
    if t = "passed" ∨ t = "partial" ∨ t = "failed" then t
    else if pyLowerS s = "true" ∨ pyLowerS s = "yes" then "passed"
    else "failed"
  | .bool true => "passed"
  | .bool false => "failed"
  | _ => "failed"

/-- Models `result.get('passed', False)` followed by canonicalization. -/
def canonPassedField (passedField : Option Json) : String :=
  canonPassedValue (passedField.getD (.bool false))

/-- Python type name used in the `AttributeError` message raised by
`result.get(...)` when `json.loads` returned a non-dict. -/
def pyTypeName : Json → String
  | .null => "NoneType"
  | .bool _ => "bool"
  | .num _ => "int"
  | .str _ => "str"
  | .arr _ => "list"
  | .obj _ => "dict"

/-- Models `app.py` lines 248–272: map a parsed JSON dict onto the verdict dict:
`locations` falls back to wrapping a singular `location`, `passed` is
canonicalized, `reason` defaults to the `'No reason provided'` sentinel. -/
def verdictOfObj (fields : List (String × Json)) : LLMVerdict :=
  let locations0 := (jlookup "locations" fields).getD (.arr [])
  let locations :=
    if !jsonTruthy locations0 then
      match jlookup "location" fields with
      | some lv => Json.arr [lv]
      | none => locations0
    else locations0
  { passed := .ofStr (canonPassedField (jlookup "passed" fields))
    reason := (jlookup "reason" fields).getD (.str "No reason provided")
    locations := locations }

/-- The `try` body of `check_rule_with_llm`'s response processing
(`app.py` lines 222–272), from the raw response text to the verdict dict,
with each raising operation reflected in the `Except` error. -/
def normalizeResponseBody (raw : String) : Except PyErr LLMVerdict := do
  let t0 := pyStripL raw.toList
  let t1 := stripFences t0
  let t2 ←
    match braceSlice t1 with
    | .ok t => pure t
    | .error m => throw (.generic m)
  let t3 := truncAfterBrace (sanitizeWs t2)
  let parsed ←
    match parseJson (String.mk t3) with
    | .ok v => pure v
    | .error m => throw (.jsonDecode m)
  match parsed with
  | .obj fields => pure (verdictOfObj fields)
  | other =>
    throw (.generic ("'" ++ pyTypeName other ++ "' object has no attribute 'get'"))

/-- Models `check_rule_with_llm`'s response normalization including its
`except` handlers (`app.py` lines 273–284): a `json.JSONDecodeError`
yields the fixed parse-error verdict; any other exception yields the
generic error verdict with `str(e)` interpolated.  Both error verdicts
carry the Python boolean `False` in their `passed` field. -/
def normalizeResponse (raw : String) : LLMVerdict :=
  match normalizeResponseBody raw with
  | .ok v => v
  | .error (.jsonDecode _) =>
    { passed := .ofBool false
      reason := .str "Unable to parse validation result. Please try again."
      locations := .arr [.str "Error occurred during validation"] }
  | .error (.generic m) =>
    { passed := .ofBool false
      reason := .str ("Error during validation: " ++ m)
      locations := .arr [.str "Validation error"] }

/-! ## `app.py` — `upload_file` summary (lines 321–350) -/

/-- One entry of the `results` list built by `upload_file`. -/
structure AppResult where
  rule_name : String
  description : String
  passed : PassedVal
  reason : Json
  locations : Json

/-- The `summary` object of `upload_file`'s response. -/
structure AppSummary where
  total : Nat
  passed : Nat
  partial_ : Nat
  failed : Nat

/-- Models `app.py` lines 336–348: `total` is the number of results and each
bucket counts results whose `passed` field equals the corresponding
status *string*. -/
def appSummary (results : List AppResult) : AppSummary :=
  { total := results.length
    passed := results.countP fun r => decide (r.passed = .ofStr "passed")
    partial_ := results.countP fun r => decide (r.passed = .ofStr "partial")
    failed := results.countP fun r => decide (r.passed = .ofStr "failed") }

/-! ## Python `str.format` with keyword arguments

`backend.py`'s checkers interpolate `rule["explanation_template"]` with
`str.format(**kwargs)`.  This models the subset those templates use:
literal text, `{{`/`}}` escapes and named replacement fields with no
conversion or format spec.  A field name missing from the arguments
raises `KeyError`; a lone brace raises `ValueError`.  The claims depend
only on success versus failure, never on the message text. -/

/-- Fuel-driven scan of a format string.  `args` is the keyword-argument
mapping (all values already rendered to strings, as `str.format` does). -/
def formatGo (args : List (String × String)) : Nat → List Char → Except String (List Char)
  | 0, _ => .error "out of fuel"
  | _ + 1, [] => .ok []
  | fuel + 1, c :: cs =>
    if c = lbrace then
      match cs with
      | d :: cs2 =>
        if d = lbrace then (formatGo args fuel cs2).map (lbrace :: ·)
        else
          let field := (d :: cs2).takeWhile (· ≠ rbrace)
          match (d :: cs2).dropWhile (· ≠ rbrace) with
          | [] => .error "expected closing brace before end of string"
          | _ :: after =>
            match List.lookup (String.mk field) args with
            | some v => (formatGo args fuel after).map (v.toList ++ ·)
            | none => .error ("KeyError: " ++ String.mk field)
      | [] => .error "single opening brace encountered in format string"
    else if c = rbrace then
      match cs with
      | d :: cs2 =>
        if d = rbrace then (formatGo args fuel cs2).map (rbrace :: ·)
        else .error "single closing brace encountered in format string"
      | [] => .error "single closing brace encountered in format string"
    else
      (formatGo args fuel cs).map (c :: ·)

/-- Models `template.format(**args)`. -/
def pyFormat (template : String) (args : List (String × String)) : Except String String :=
  (formatGo args (template.toList.length + 1) template.toList).map fun l => String.mk l

/-- Whether formatting `template` with arguments named `names` succeeds;
by `pyFormat_isOk_eq_templateOk` below this depends only on the names,
not the values, so it characterizes a well-formed template. -/
def templateOk (template : String) (names : List String) : Bool :=
  (pyFormat template (names.map fun n => (n, ""))).isOk

/-! ## `backend.py` — rule model and `ChecklistValidator` -/

/-- One entry of `checklist_config.json`'s `rules` array as `backend.py`
consumes it.  Fields read with `rule[...]` are plain; fields read with
`rule.get(...)` whose default differs between call sites are `Option`. -/
structure Rule where
  rule_id : String
  rule_name : String
  severity : String
  check_type : Option String
  expected_value : String
  search_pattern : String
  keywords : List String
  required_count : Option Int
  section_name : String
  explanation_template : String

/-- The dict a single checker returns.  Every checker produces `passed`
and `explanation`; the type-specific extras (`found_value`,
`found_keywords`, `found_count`) are optional. -/
structure CheckResult where
  passed : Bool
  explanation : String
  found_value : Option String := none
  found_keywords : Option String := none
  found_count : Option Nat := none

/-- Models `ChecklistValidator.validate_exact_match` (`backend.py` lines 69–84):
case-insensitive `re.search` for `rule["search_pattern"]` (modelled for
metacharacter-free patterns as a literal search), `found_value` is the
matched text or `"Not found"`, and the explanation template is formatted
with `found_value` (raising on a malformed template). -/
def validate_exact_match (text : String) (rule : Rule) : Except String CheckResult := do
  let m := litFind rule.search_pattern text
  let passed := m.isSome
  let found_value := m.getD "Not found"
  let explanation ← pyFormat rule.explanation_template [("found_value", found_value)]
  pure { passed := passed, explanation := explanation, found_value := some found_value }

/-- The accumulation loop of `validate_keyword` (`backend.py` lines
92–99): walk the keyword list; a keyword with a positive occurrence count
is appended to `found_keywords` and its count added to `found_count`. -/
def keywordScan (text : String) (keywords : List String) : List String × Nat :=
  keywords.foldl
    (fun acc k =>
      let count := pyFindAllCount k text
      if count > 0 then (acc.1 ++ [k], acc.2 + count) else acc)
    ([], 0)

/-- Models `ChecklistValidator.validate_keyword` (`backend.py` lines 86–111):
`passed` iff the number of keywords found at least once is `≥
rule.get("required_count", 1)`; `found_count` is the total occurrence
count; the explanation template is formatted with both. -/
def validate_keyword (text : String) (rule : Rule) : Except String CheckResult := do
  let required_count := rule.required_count.getD 1
  let (found_keywords, found_count) := keywordScan text rule.keywords
  let passed := (found_keywords.length : Int) ≥ required_count
  let shown := if found_keywords.isEmpty then "None" else String.intercalate ", " found_keywords
  let explanation ←
    pyFormat rule.explanation_template
      [("found_count", toString found_count), ("found_keywords", shown)]
  pure { passed := passed, explanation := explanation,
         found_keywords := some shown, found_count := some found_count }

/-- Models `ChecklistValidator.validate_section_header` (`backend.py` lines
113–126): `re.search` of the pattern
`rf"^{esc}|#{esc}|\*{esc}\*"` with `IGNORECASE | MULTILINE`, i.e. the
escaped section name at the start of a line (start of string or right
after a newline), or immediately after a `#`, or enclosed between two
`*` — all case-insensitively.  The explanation is the raw template. -/
def sectionHeaderFound (section_name text : String) : Bool :=
  let n := lowerL section_name.toList
  let t := lowerL text.toList
  (splitNl t).any (fun seg => n.isPrefixOf seg)
    || sublistSearch ('#' :: n) t
    || sublistSearch ('*' :: (n ++ ['*'])) t

/-- Models `ChecklistValidator.validate_section_header` as a checker (never
raises: the template is not formatted). -/
def validate_section_header (text : String) (rule : Rule) : Except String CheckResult :=
  .ok { passed := sectionHeaderFound rule.section_name text
        explanation := rule.explanation_template }

/-- Total occurrence count over a keyword list (the loop of
`validate_negative_keyword`, `backend.py` lines 134–137). -/
def totalOccCount (text : String) (keywords : List String) : Nat :=
  keywords.foldl (fun acc k => acc + pyFindAllCount k text) 0

/-- Models `ChecklistValidator.validate_negative_keyword` (`backend.py` lines
128–145): `passed` iff the total occurrence count of all keywords is `≤
rule.get("required_count", 0)`; the explanation template is formatted
with `found_count`. -/
def validate_negative_keyword (text : String) (rule : Rule) : Except String CheckResult := do
  let required_count := rule.required_count.getD 0
  let found_count := totalOccCount text rule.keywords
  let passed := (found_count : Int) ≤ required_count
  let explanation ←
    pyFormat rule.explanation_template [("found_count", toString found_count)]
  pure { passed := passed, explanation := explanation, found_count := some found_count }

/-- The `check_type` dispatch of `validate_all_rules` (`backend.py` lines
154–168): `rule.get("check_type", "keyword")` selects the checker; an
unrecognized type yields the fixed
`{"passed": False, "explanation": "Unknown check type"}` dict. -/
def dispatchRule (text : String) (rule : Rule) : Except String CheckResult :=
  let check_type := rule.check_type.getD "keyword"
  if check_type = "exact_match" then validate_exact_match text rule
  else if check_type = "keyword" then validate_keyword text rule
  else if check_type = "section_header" then validate_section_header text rule
  else if check_type = "negative_keyword" then validate_negative_keyword text rule
  else .ok { passed := false, explanation := "Unknown check type" }

/-- One entry of the `results` list built by `validate_all_rules`
(`backend.py` lines 170–176). -/
structure BResult where
  rule_id : String
  rule_name : String
  severity : String
  passed : Bool
  explanation : String

/-- Models `ChecklistValidator.validate_all_rules` (`backend.py` lines 148–178):
evaluate every rule in order, wrapping each checker result with the
rule's identity fields.  There is no exception handling around the
dispatch, so a raising checker aborts the whole batch. -/
def validate_all_rules (text : String) : List Rule → Except String (List BResult)
  | [] => .ok []
  | rule :: rest => do
    let result ← dispatchRule text rule
    let others ← validate_all_rules text rest
    pure ({ rule_id := rule.rule_id, rule_name := rule.rule_name,
            severity := rule.severity, passed := result.passed,
            explanation := result.explanation } :: others)

/-- The `summary` object of `upload_report`'s response. -/
structure BSummary where
  total_rules : Nat
  passed_rules : Nat
  failed_rules : Nat
  critical_failures : Nat
  overall_status : String

/-- Models `upload_report`'s aggregation (`backend.py` lines 262–279):
`passed_rules` counts truthy `passed` fields, `failed_rules` is the
difference, `critical_failures` counts failed results of severity
`"critical"`, and `overall_status` is `"PASS"` exactly when there are
none of the latter. -/
def backendSummary (results : List BResult) : BSummary :=
  let total_rules := results.length
  let passed_rules := results.countP (·.passed)
  let critical_failures := results.countP fun r => !r.passed && r.severity == "critical"
  { total_rules := total_rules
    passed_rules := passed_rules
    failed_rules := total_rules - passed_rules
    critical_failures := critical_failures
    overall_status := if critical_failures = 0 then "PASS" else "FAIL" }

/-! ## `validator.py` — `ReportValidator` -/

/-- One entry of `checklist.json`'s `rules` array as `validator.py`
consumes it (`rule_id`/`rule_name`/`check_type`/`severity`/`explanation`
are accessed with `rule[...]`, the type parameters with `rule.get`). -/
structure VRule where
  rule_id : String
  rule_name : String
  check_type : String
  severity : String
  keywords : List String
  min_occurrences : Option Int
  section_name : String
  pattern : String
  explanation : String

/-- Models `ReportValidator.check_keyword` (`validator.py` lines 51–62): the
*total* number of case-insensitive occurrences of all keywords must reach
`rule.get('min_occurrences', 1)`. -/
def check_keyword (text : String) (rule : VRule) : Bool :=
  let found_count := rule.keywords.foldl (fun acc k => acc + pyFindAllCount k text) 0
  (found_count : Int) ≥ rule.min_occurrences.getD 1

/-- Does `pat` occur at the start of `seg` after any amount of leading
whitespace?  This is `re.search(rf"^\s*{esc}", ...)` restricted to one
`^`-anchored segment: `\s*` may stop after any run of whitespace
characters. -/
def wsPrefixMatch (pat : List Char) : List Char → Bool
  | [] => pat.isPrefixOf []
  | c :: cs => pat.isPrefixOf (c :: cs) || (pyIsSpace c && wsPrefixMatch pat cs)

/-- Models `ReportValidator.check_section` (`validator.py` lines 64–70):
`re.search(rf"^\s*{re.escape(section_name)}", text, IGNORECASE |
MULTILINE)` — the escaped section name at the start of some line,
allowing leading whitespace. -/
def check_section (text : String) (rule : VRule) : Bool :=
  let n := lowerL rule.section_name.toList
  (splitNl (lowerL text.toList)).any fun seg => wsPrefixMatch n seg

/-- Models `ReportValidator.check_exact_match` (`validator.py` lines 72–78): an
empty pattern fails outright; otherwise a case-insensitive `re.search`
(modelled for metacharacter-free patterns as a literal search). -/
def check_exact_match (text : String) (rule : VRule) : Bool :=
  if rule.pattern = "" then false
  else (litFind rule.pattern text).isSome

/-- The `check_type` dispatch of `ReportValidator.validate`
(`validator.py` lines 108–116); note this file's section type is
`'section'` and every unrecognized type silently maps to `False`. -/
def vDispatch (text : String) (rule : VRule) : Bool :=
  if rule.check_type = "keyword" then check_keyword text rule
  else if rule.check_type = "section" then check_section text rule
  else if rule.check_type = "exact_match" then check_exact_match text rule
  else false

/-- One entry of `self.results` (`validator.py` lines 119–124): the four
stored fields.  The record carries no reason/explanation field. -/
structure VResult where
  rule_id : String
  rule_name : String
  severity : String
  passed : Bool
deriving DecidableEq

/-- The result list built by `ReportValidator.validate` (`validator.py`
lines 102–124): one record per rule, in order. -/
def validatorValidate (text : String) (rules : List VRule) : List VResult :=
  rules.map fun rule =>
    { rule_id := rule.rule_id, rule_name := rule.rule_name,
      severity := rule.severity, passed := vDispatch text rule }

/-- The explanation `validate` prints for a failed rule (`validator.py`
line 130): the rule's *configured* `explanation` field — the code never
substitutes a different reason for an unknown check type. -/
def validatorFailureReason (rule : VRule) : String := rule.explanation

/-! ## `backend/app.py` — generative client with fallback, and the
compliance score -/

/-- Outcome of the `requests.post` call to the generative service in
`check_client_name_rule`: either an exception (connection failure or
timeout, including a malformed HTTP-level JSON body, all reaching the
same `except Exception` handler) carrying `str(e)`, or a completed
response with its status code and the extracted `response` text field
(`result.get('response', '{}')`). -/
inductive PostOutcome where
  | exc (msg : String) : PostOutcome
  | resp (status : Nat) (responseText : String) : PostOutcome

/-- The fixed dict `check_client_name_rule` returns when the service
responded but no verdict object could be recovered
(`backend/app.py` lines 103–107). -/
def clientNameFallback : Json :=
  .obj [("satisfied", .bool false), ("confidence", .num 0),
        ("reasoning", .str "Could not verify client name against report")]

/-- The dict returned by the `except Exception` handler of
`check_client_name_rule` (`backend/app.py` lines 109–114). -/
def clientNameError (msg : String) : Json :=
  .obj [("satisfied", .bool false), ("confidence", .num 0),
        ("reasoning", .str ("Error during client name verification: " ++ msg))]

/-- Models `backend/app.py` lines 92–101: strip the response text, slice from
the first `{` to the last `}` and `json.loads` the slice; any failure
(no braces, or `json.JSONDecodeError`) recovers nothing. -/
def extractClientJson (responseText : String) : Option Json :=
  let t := pyStripL responseText.toList
  match firstIdxOf lbrace t, lastIdxOf rbrace t with
  | some s, some e =>
    if s ≤ e then (parseJson (String.mk ((t.drop s).take (e + 1 - s)))).toOption
    else none
  | _, _ => none

/-- Models `check_client_name_rule` (`backend/app.py` lines 52–114) as a
function of the HTTP outcome: on a 200 response, return the recovered
verdict object or the fixed fallback; on any other status, the fallback;
on an exception, the error dict.  (`check_audit_period_rule`, lines
117–178, is line-for-line identical in this structure.) -/
def check_client_name_rule (outcome : PostOutcome) : Json :=
  match outcome with
  | .exc msg => clientNameError msg
  | .resp status responseText =>
    if status = 200 then (extractClientJson responseText).getD clientNameFallback
    else clientNameFallback

/-- Field access on a JSON object. -/
def jget (j : Json) (k : String) : Option Json :=
  match j with
  | .obj fields => jlookup k fields
  | _ => none

/-- One entry of the `results` list built by `review_report` /
`upload_report` (`backend/app.py` lines 215–222 and 294–301); the
summary only inspects `satisfied` (by truthiness). -/
structure ReviewResult where
  rule_id : String
  rule_name : String
  importance : String
  satisfied : Json
  confidence : Json
  reasoning : Json

/-- Models `satisfied_count = sum(1 for r in results if r['satisfied'])`. -/
def satisfiedCount (results : List ReviewResult) : Nat :=
  results.countP fun r => jsonTruthy r.satisfied

/-- Models `compliance_score = (satisfied_count / total_rules * 100) if
total_rules > 0 else 0` — the identical expression at `backend/app.py`
lines 227 (`review_report`) and 306 (`upload_report`), with the exact
rational value of the division. -/
def complianceScore (satisfied_count total_rules : Nat) : Rat :=
  if total_rules > 0 then (satisfied_count : Rat) / (total_rules : Rat) * 100 else 0

/-- The compliance score both review endpoints attach to a result list. -/
def reviewCompliance (results : List ReviewResult) : Rat :=
  complianceScore (satisfiedCount results) results.length

/-! ## Spec-side definitions

Definitions transcribed from the *spec's words* (not from the source),
used only to compare a claim's description against the embedded code. -/

/-- Stated from the spec's words (§4.4 / claim C6): the fallback
confidence is the fraction of rule keywords present in the text by
case-insensitive substring match. -/
def spec_fallbackConfidence (keywords : List String) (text : String) : Rat :=
  ((keywords.countP fun k => sublistSearch (lowerL k.toList) (lowerL text.toList)) : Rat) /
    (keywords.length : Rat)

/-- Stated from the spec's words (§4.4 / claim C6): fallback status is
passed exactly when the keyword-overlap confidence reaches `0.3`. -/
def spec_fallbackPassed (keywords : List String) (text : String) : Bool :=
  spec_fallbackConfidence keywords text ≥ (3 : Rat) / 10

/-- Stated from the claim C8's words: the section name at the start of a
line, or *preceded by* `#`, or *preceded by* `*` (no closing marker
required), case-insensitively. -/
def spec_sectionFound (name text : String) : Bool :=
  let n := lowerL name.toList
  let t := lowerL text.toList
  (splitNl t).any (fun seg => n.isPrefixOf seg)
    || sublistSearch ('#' :: n) t
    || sublistSearch ('*' :: n) t

/-- Stated from the claim C1's words: booleans map to passed/failed, a
string equal (case-insensitively, after trimming) to one of the three
statuses maps to itself, *any other string* maps to failed, and a
missing field maps to failed. -/
def spec_canonStatus (passedField : Option Json) : String :=
  match passedField with
  | some (.bool true) => "passed"
  | some (.bool false) => "failed"
  | some (.str s) =>
    let t := pyStripS (pyLowerS s)
    if t = "passed" ∨ t = "partial" ∨ t = "failed" then t else "failed"
  | _ => "failed"

/-! ## Supporting lemmas -/

lemma except_isOk_map {ε α β : Type} (f : α → β) (x : Except ε α) :
    (x.map f).isOk = x.isOk := by
  cases x <;> rfl

lemma isPrefixOf_eq_true_iff (n : List Char) :
    ∀ h : List Char, n.isPrefixOf h = true ↔ ∃ t, h = n ++ t := by
  induction n with
  | nil => intro h; simp [List.isPrefixOf]
  | cons c n ih =>
    intro h
    cases h with
    | nil => simp [List.isPrefixOf]
    | cons d h =>
      simp only [List.isPrefixOf, Bool.and_eq_true, beq_iff_eq, ih]
      constructor
      · rintro ⟨hcd, t, hht⟩
        refine ⟨t, ?_⟩
        subst hcd
        rw [List.cons_append, hht]
      · rintro ⟨t, ht⟩
        rw [List.cons_append] at ht
        injection ht with h1 h2
        exact ⟨h1.symm, t, h2⟩

lemma sublistSearch_eq_true_iff (n : List Char) :
    ∀ h : List Char, sublistSearch n h = true ↔ ∃ pre post, h = pre ++ n ++ post := by
  intro h
  induction h with
  | nil =>
    simp only [sublistSearch, isPrefixOf_eq_true_iff]
    constructor
    · rintro ⟨t, ht⟩
      exact ⟨[], t, by simpa using ht⟩
    · rintro ⟨pre, post, hp⟩
      rcases List.append_eq_nil.mp ((List.append_assoc pre n post ▸ hp).symm) with ⟨h1, h2⟩
      rcases List.append_eq_nil.mp h2 with ⟨h3, h4⟩
      exact ⟨[], by simp [h3]⟩
  | cons c cs ih =>
    simp only [sublistSearch, Bool.or_eq_true, isPrefixOf_eq_true_iff, ih]
    constructor
    · rintro (⟨t, ht⟩ | ⟨pre, post, hp⟩)
      · exact ⟨[], t, by simpa using ht⟩
      · exact ⟨c :: pre, post, by simp [hp]⟩
    · rintro ⟨pre, post, hp⟩
      cases pre with
      | nil => exact Or.inl ⟨post, by simpa using hp⟩
      | cons p pre =>
        right
        refine ⟨pre, post, ?_⟩
        simpa using congrArg List.tail hp

lemma countOccsAux_pos_iff (n : List Char) (hn : n ≠ []) :
    ∀ (fuel : Nat) (h : List Char), h.length ≤ fuel →
      (0 < countOccsAux n fuel h ↔ sublistSearch n h = true) := by
  intro fuel
  induction fuel with
  | zero =>
    intro h hl
    have : h = [] := List.length_eq_zero.mp (Nat.le_zero.mp hl)
    subst this
    cases n with
    | nil => exact absurd rfl hn
    | cons a m => simp [countOccsAux, sublistSearch, List.isPrefixOf]
  | succ fuel ih =>
    intro h hl
    cases h with
    | nil =>
      cases n with
      | nil => exact absurd rfl hn
      | cons a m => simp [countOccsAux, sublistSearch, List.isPrefixOf]
    | cons c cs =>
      have hcs : cs.length ≤ fuel := by
        simpa [List.length_cons, Nat.succ_le_succ_iff] using hl
      cases hp : n.isPrefixOf (c :: cs) with
      | true => simp [countOccsAux, sublistSearch, hp]
      | false => simp [countOccsAux, sublistSearch, hp, ih cs hcs]

lemma pyFindAllCount_pos_iff (k text : String) :
    0 < pyFindAllCount k text ↔
      ∃ pre post, lowerL text.toList = pre ++ lowerL k.toList ++ post := by
  unfold pyFindAllCount
  by_cases hk : (lowerL k.toList).isEmpty
  · have hke : lowerL k.toList = [] := by simpa [List.isEmpty_iff] using hk
    simp only [hk, if_pos]
    constructor
    · intro _
      exact ⟨[], lowerL text.toList, by simp [String.toList] at hke ⊢; simp [hke]⟩
    · intro _
      exact Nat.succ_pos _
  · have hne : lowerL k.toList ≠ [] := by
      simpa [List.isEmpty_iff] using hk
    simp only [hk, if_neg, Bool.false_eq_true, not_false_iff]
    rw [countOccsAux_pos_iff _ hne _ _ le_rfl,
      sublistSearch_eq_true_iff]

lemma wsPrefixMatch_eq_true_iff (pat : List Char) :
    ∀ seg : List Char, wsPrefixMatch pat seg = true ↔
      ∃ ws rest, seg = ws ++ (pat ++ rest) ∧ ws.all pyIsSpace = true := by
  intro seg
  induction seg with
  | nil =>
    simp only [wsPrefixMatch, isPrefixOf_eq_true_iff]
    constructor
    · rintro ⟨t, ht⟩
      exact ⟨[], t, by simpa using ht, rfl⟩
    · rintro ⟨ws, rest, hseg, _⟩
      rcases List.append_eq_nil.mp hseg.symm with ⟨h1, h2⟩
      rcases List.append_eq_nil.mp h2 with ⟨h3, h4⟩
      exact ⟨rest, by simp [h3, h4]⟩
  | cons c cs ih =>
    simp only [wsPrefixMatch, Bool.or_eq_true, Bool.and_eq_true,
      isPrefixOf_eq_true_iff, ih]
    constructor
    · rintro (⟨t, ht⟩ | ⟨hsp, ws, rest, hseg, hall⟩)
      · exact ⟨[], t, by simpa using ht, rfl⟩
      · exact ⟨c :: ws, rest, by simp [hseg], by simp [List.all_cons, hsp, hall]⟩
    · rintro ⟨ws, rest, hseg, hall⟩
      cases ws with
      | nil => exact Or.inl ⟨rest, by simpa using hseg⟩
      | cons w ws =>
        right
        have hw : pyIsSpace w = true ∧ ws.all pyIsSpace = true := by
          simpa [List.all_cons] using hall
        have hcw : c = w ∧ cs = ws ++ (pat ++ rest) := by
          rw [List.cons_append] at hseg
          exact ⟨by injection hseg, by injection hseg⟩
        exact ⟨hcw.1 ▸ hw.1, ws, rest, hcw.2, hw.2⟩

lemma foldl_add_eq_sum (f : String → Nat) :
    ∀ (l : List String) (a : Nat),
      l.foldl (fun acc k => acc + f k) a = a + (l.map f).sum := by
  intro l
  induction l with
  | nil => intro a; simp
  | cons k l ih => intro a; simp [ih, Nat.add_assoc]

lemma keywordScan_fst (text : String) :
    ∀ (kws : List String) (accL : List String) (accN : Nat),
      (kws.foldl
        (fun acc k =>
          let count := pyFindAllCount k text
          if count > 0 then (acc.1 ++ [k], acc.2 + count) else acc)
        (accL, accN)).1 =
        accL ++ kws.filter (fun k => decide (0 < pyFindAllCount k text)) := by
  intro kws
  induction kws with
  | nil => intro accL accN; simp
  | cons k kws ih =>
    intro accL accN
    by_cases hc : 0 < pyFindAllCount k text
    · simp [List.foldl_cons, hc, ih, List.filter_cons]
    · simp [List.foldl_cons, hc, ih, List.filter_cons]

lemma lookup_mapEmpty_isSome (k : String) :
    ∀ args : List (String × String),
      (List.lookup k (args.map fun p => (p.1, ""))).isSome = (List.lookup k args).isSome := by
  intro args
  induction args with
  | nil => rfl
  | cons a rest ih => cases hk : k == a.1 <;> simp [List.lookup, hk, ih]

lemma formatGo_isOk_congr (args1 args2 : List (String × String))
    (h : ∀ k, (List.lookup k args1).isSome = (List.lookup k args2).isSome) :
    ∀ (fuel : Nat) (cs : List Char),
      (formatGo args1 fuel cs).isOk = (formatGo args2 fuel cs).isOk := by
  intro fuel
  induction fuel with
  | zero => intro cs; rfl
  | succ fuel ih =>
    intro cs
    cases cs with
    | nil => rfl
    | cons c cs =>
      simp only [formatGo]
      by_cases hc : c = lbrace
      · simp only [if_pos hc]
        cases cs with
        | nil => rfl
        | cons d cs2 =>
          by_cases hd : d = lbrace
          · simp only [if_pos hd, except_isOk_map, ih]
          · simp only [if_neg hd]
            cases hdrop : (d :: cs2).dropWhile (· ≠ rbrace) with
            | nil => rfl
            | cons x after =>
              have hk := h (String.mk ((d :: cs2).takeWhile (· ≠ rbrace)))
              cases h1 : List.lookup (String.mk ((d :: cs2).takeWhile (· ≠ rbrace))) args1 with
              | none =>
                cases h2 : List.lookup (String.mk ((d :: cs2).takeWhile (· ≠ rbrace))) args2 with
                | none => rfl
                | some v => rw [h1, h2] at hk; simp at hk
              | some v =>
                cases h2 : List.lookup (String.mk ((d :: cs2).takeWhile (· ≠ rbrace))) args2 with
                | none => rw [h1, h2] at hk; simp at hk
                | some w => simp only [except_isOk_map, ih]
      · by_cases hc2 : c = rbrace
        · simp only [if_neg hc, if_pos hc2]
          cases cs with
          | nil => rfl
          | cons d cs2 =>
            by_cases hd : d = rbrace
            · simp only [if_pos hd, except_isOk_map, ih]
            · simp only [if_neg hd]
        · simp only [if_neg hc, if_neg hc2, except_isOk_map, ih]

lemma pyFormat_isOk_eq (tpl : String) (args : List (String × String)) :
    (pyFormat tpl args).isOk = templateOk tpl (args.map Prod.fst) := by
  simp only [pyFormat, templateOk]
  rw [except_isOk_map, except_isOk_map]
  refine formatGo_isOk_congr args _ ?_ _ _
  intro k
  have hmap : (args.map Prod.fst).map (fun n => (n, "")) = args.map (fun p => (p.1, "")) := by
    simp [List.map_map, Function.comp]
  rw [hmap, lookup_mapEmpty_isSome]

lemma except_bind_pure_isOk {ε α β : Type} (x : Except ε α) (f : α → β) :
    (x >>= fun a => pure (f a) : Except ε β).isOk = x.isOk := by
  cases x <;> rfl

/-- A `check_type` recognized by none of `validate_all_rules`' branches. -/
def isUnknownType (r : Rule) : Prop :=
  r.check_type.getD "keyword" ≠ "exact_match" ∧
  r.check_type.getD "keyword" ≠ "keyword" ∧
  r.check_type.getD "keyword" ≠ "section_header" ∧
  r.check_type.getD "keyword" ≠ "negative_keyword"

lemma dispatchRule_unknown (text : String) (r : Rule) (h : isUnknownType r) :
    dispatchRule text r = .ok { passed := false, explanation := "Unknown check type" } := by
  rcases h with ⟨h1, h2, h3, h4⟩
  simp [dispatchRule, h1, h2, h3, h4]

/-- Well-formed rule parameters: a metacharacter-free `search_pattern`
where a regex is searched, and an explanation template whose replacement
fields are exactly the keyword arguments the relevant checker passes. -/
def ruleWellFormed (r : Rule) : Prop :=
  (r.check_type.getD "keyword" = "exact_match" →
    literalPattern r.search_pattern = true ∧
    templateOk r.explanation_template ["found_value"] = true) ∧
  (r.check_type.getD "keyword" = "keyword" →
    templateOk r.explanation_template ["found_count", "found_keywords"] = true) ∧
  (r.check_type.getD "keyword" = "negative_keyword" →
    templateOk r.explanation_template ["found_count"] = true)

lemma validate_exact_match_isOk (text : String) (r : Rule) :
    (validate_exact_match text r).isOk =
      templateOk r.explanation_template ["found_value"] := by
  unfold validate_exact_match
  rw [except_bind_pure_isOk, pyFormat_isOk_eq]
  simp

lemma validate_keyword_isOk (text : String) (r : Rule) :
    (validate_keyword text r).isOk =
      templateOk r.explanation_template ["found_count", "found_keywords"] := by
  unfold validate_keyword
  rw [except_bind_pure_isOk, pyFormat_isOk_eq]
  simp

lemma validate_negative_keyword_isOk (text : String) (r : Rule) :
    (validate_negative_keyword text r).isOk =
      templateOk r.explanation_template ["found_count"] := by
  unfold validate_negative_keyword
  rw [except_bind_pure_isOk, pyFormat_isOk_eq]
  simp

lemma dispatchRule_isOk_of_wellFormed (text : String) (r : Rule)
    (h : ruleWellFormed r) : (dispatchRule text r).isOk = true := by
  rcases h with ⟨h1, h2, h3⟩
  simp only [dispatchRule]
  by_cases e1 : r.check_type.getD "keyword" = "exact_match"
  · rw [e1, if_pos rfl, validate_exact_match_isOk]
    exact (h1 e1).2
  · by_cases e2 : r.check_type.getD "keyword" = "keyword"
    · rw [e2, if_neg (by decide), if_pos rfl, validate_keyword_isOk]
      exact h2 e2
    · by_cases e3 : r.check_type.getD "keyword" = "section_header"
      · rw [e3, if_neg (by decide), if_neg (by decide), if_pos rfl]
        rfl
      · by_cases e4 : r.check_type.getD "keyword" = "negative_keyword"
        · rw [e4, if_neg (by decide), if_neg (by decide), if_neg (by decide),
            if_pos rfl, validate_negative_keyword_isOk]
          exact h3 e4
        · rw [if_neg e1, if_neg e2, if_neg e3, if_neg e4]
          rfl

lemma validate_all_rules_ok_of_wellFormed (text : String) :
    ∀ rules : List Rule, (∀ r ∈ rules, ruleWellFormed r) →
      ∃ rs, validate_all_rules text rules = .ok rs ∧ rs.length = rules.length := by
  intro rules
  induction rules with
  | nil => intro _; exact ⟨[], rfl, rfl⟩
  | cons rule rest ih =>
    intro h
    have hok := dispatchRule_isOk_of_wellFormed text rule (h rule (by simp))
    cases hdisp : dispatchRule text rule with
    | error e => rw [hdisp] at hok; simp [Except.isOk, Except.toBool] at hok
    | ok a =>
      rcases ih (fun r hr => h r (by simp [hr])) with ⟨tl, htl, hlen⟩
      refine ⟨{ rule_id := rule.rule_id, rule_name := rule.rule_name,
                severity := rule.severity, passed := a.passed,
                explanation := a.explanation } :: tl, ?_, by simp [hlen]⟩
      simp [validate_all_rules, hdisp, htl, Bind.bind, Except.bind, pure, Except.pure]

lemma validate_all_rules_ok_spec (text : String) :
    ∀ (rules : List Rule) (rs : List BResult),
      validate_all_rules text rules = .ok rs →
      rs.length = rules.length ∧
      List.Forall₂ (fun (rule : Rule) (res : BResult) =>
        isUnknownType rule →
          res = { rule_id := rule.rule_id, rule_name := rule.rule_name,
                  severity := rule.severity, passed := false,
                  explanation := "Unknown check type" }) rules rs := by
  intro rules
  induction rules with
  | nil =>
    intro rs h
    simp only [validate_all_rules] at h
    injection h with h
    subst h
    exact ⟨rfl, .nil⟩
  | cons rule rest ih =>
    intro rs h
    simp only [validate_all_rules] at h
    cases hdisp : dispatchRule text rule with
    | error e => rw [hdisp] at h; simp [Bind.bind, Except.bind] at h
    | ok a =>
      rw [hdisp] at h
      cases hrest : validate_all_rules text rest with
      | error e => rw [hrest] at h; simp [Bind.bind, Except.bind] at h
      | ok tl =>
        rw [hrest] at h
        simp only [Bind.bind, Except.bind, pure, Except.pure] at h
        injection h with h
        subst h
        rcases ih tl hrest with ⟨hlen, hfa⟩
        refine ⟨by simp [hlen], .cons ?_ hfa⟩
        intro hu
        have := dispatchRule_unknown text rule hu
        rw [this] at hdisp
        injection hdisp with ha
        rw [← ha]

lemma forall₂_map_self {α β : Type} (P : α → β → Prop) (f : α → β)
    (h : ∀ a, P a (f a)) : ∀ l : List α, List.Forall₂ P l (l.map f) := by
  intro l
  induction l with
  | nil => exact .nil
  | cons a l ih => exact .cons (h a) ih

/-! ## Claim theorems -/

/-- C1, counterexample.  The claim states that a string value other than
`"passed"`/`"partial"`/`"failed"` (case-insensitively, trimmed) is
treated as `failed`.  The code (`app.py` lines 257–260) additionally maps
the strings whose lowercase form is `"true"` or `"yes"` to `passed`:
on the concrete field value `"true"` the normalizer yields `"passed"`
where the claim (restated as `spec_canonStatus`) demands `"failed"`. -/
theorem c1_counterexample :
    canonPassedField (some (.str "true")) = "passed" ∧
    spec_canonStatus (some (.str "true")) = "failed" := by
  exact ⟨by decide, by decide⟩

/-- C1 (amended): status canonicalization in `check_rule_with_llm`.
Boolean `true`/`false` yield `"passed"`/`"failed"`; a string equal
case-insensitively after trimming to one of the three statuses yields
that status; any *other* string yields `"failed"` — except that a string
whose (untrimmed) lowercase form is `"true"` or `"yes"` yields
`"passed"`; a missing field and every non-bool/non-string value yield
`"failed"`, never `"passed"`. -/
theorem c1_status_canonicalization :
    (canonPassedField (some (.bool true)) = "passed") ∧
    (canonPassedField (some (.bool false)) = "failed") ∧
    (∀ s, pyStripS (pyLowerS s) = "passed" → canonPassedField (some (.str s)) = "passed") ∧
    (∀ s, pyStripS (pyLowerS s) = "partial" → canonPassedField (some (.str s)) = "partial") ∧
    (∀ s, pyStripS (pyLowerS s) = "failed" → canonPassedField (some (.str s)) = "failed") ∧
    (∀ s, pyStripS (pyLowerS s) ≠ "passed" → pyStripS (pyLowerS s) ≠ "partial" →
      pyStripS (pyLowerS s) ≠ "failed" →
      (((pyLowerS s = "true" ∨ pyLowerS s = "yes") →
          canonPassedField (some (.str s)) = "passed") ∧
        (pyLowerS s ≠ "true" → pyLowerS s ≠ "yes" →
          canonPassedField (some (.str s)) = "failed"))) ∧
    (canonPassedField none = "failed") ∧
    (∀ q, canonPassedField (some (.num q)) = "failed") ∧
    (canonPassedField (some .null) = "failed") ∧
    (∀ xs, canonPassedField (some (.arr xs)) = "failed") ∧
    (∀ fs, canonPassedField (some (.obj fs)) = "failed") := by
  refine ⟨rfl, rfl, ?_, ?_, ?_, ?_, rfl, fun q => rfl, rfl, fun xs => rfl, fun fs => rfl⟩
  · intro s h
    simp [canonPassedField, canonPassedValue, h]
  · intro s h
    simp [canonPassedField, canonPassedValue, h]
  · intro s h
    simp [canonPassedField, canonPassedValue, h]
  · intro s h1 h2 h3
    constructor
    · rintro (h | h) <;> simp [canonPassedField, canonPassedValue, h1, h2, h3, h] <;> decide
    · intro h4 h5
      simp [canonPassedField, canonPassedValue, h1, h2, h3, h4, h5]

/-- C1, witness: the amended canonicalization at three concrete strings:
a mixed-case padded `" Partial "`, the boolean-like string `"True"`, and
an unrecognized string `"maybe"`. -/
theorem c1_status_canonicalization_witness :
    canonPassedField (some (.str " Partial ")) = "partial" ∧
    canonPassedField (some (.str "True")) = "passed" ∧
    canonPassedField (some (.str "maybe")) = "failed" := by
  refine ⟨?_, ?_, ?_⟩
  · exact c1_status_canonicalization.2.2.2.1 " Partial " (by decide)
  · exact (c1_status_canonicalization.2.2.2.2.2.1 "True" (by decide) (by decide)
      (by decide)).1 (Or.inl (by decide))
  · exact (c1_status_canonicalization.2.2.2.2.2.1 "maybe" (by decide) (by decide)
      (by decide)).2 (by decide) (by decide)

/-- C2, counterexample.  On the irrecoverable raw response
`"no json here"` (no brace-delimited object), the normalizer's body
raises and the handler returns a verdict whose `passed` field is the
*boolean* `False` (`app.py` lines 274, 280) — not the canonical status
string `"failed"` that the claim requires; the summary code
(`app.py` lines 337–339) counts such a verdict in no status bucket. -/
theorem c2_counterexample :
    (normalizeResponseBody "no json here").isOk = false ∧
    (normalizeResponse "no json here").passed = .ofBool false ∧
    (normalizeResponse "no json here").passed ≠ .ofStr "failed" := by
  exact ⟨rfl, rfl, by decide⟩

/-- C2 (amended): the response normalizer is total — both `except`
handlers of `check_rule_with_llm` return a verdict rather than
re-raising — and on every raw response whose processing body raises, the
verdict carries a non-empty diagnostic reason string; its status field,
however, is the boolean `False` (which canonicalizes to failed but is
not the string `"failed"`). -/
theorem c2_normalizer_total (raw : String) (e : PyErr)
    (h : normalizeResponseBody raw = .error e) :
    (normalizeResponse raw).passed = .ofBool false ∧
    ∃ s, (normalizeResponse raw).reason = .str s ∧ s ≠ "" := by
  unfold normalizeResponse
  rw [h]
  cases e with
  | jsonDecode m =>
    exact ⟨rfl, "Unable to parse validation result. Please try again.", rfl, by decide⟩
  | generic m =>
    refine ⟨rfl, "Error during validation: " ++ m, rfl, ?_⟩
    intro hc
    have hlen := congrArg String.length hc
    rw [String.length_append] at hlen
    have h25 : ("Error during validation: " : String).length = 25 := rfl
    have h0 : ("" : String).length = 0 := rfl
    rw [h25, h0] at hlen
    omega

/-- C2, witness: the amended statement at the concrete irrecoverable
response `"no verdict returned"`. -/
theorem c2_normalizer_total_witness :
    (normalizeResponse "no verdict returned").passed = .ofBool false ∧
    ∃ s, (normalizeResponse "no verdict returned").reason = .str s ∧ s ≠ "" :=
  c2_normalizer_total "no verdict returned"
    (.generic "No valid JSON found in response") rfl

/-- The verdict `upload_file` records when `check_rule_with_llm`'s error
handler fired: the `passed` field holds the Python boolean `False`. -/
def errorAppResult : AppResult :=
  { rule_name := "Audit Period", description := "Dates must match",
    passed := .ofBool false,
    reason := .str "Unable to parse validation result. Please try again.",
    locations := .arr [.str "Error occurred during validation"] }

/-- C3, counterexample.  For the one-element verdict list produced by a
failed LLM parse (status = boolean `False`), `upload_file`'s summary
(`app.py` lines 336–339) counts the verdict in *no* bucket: `total = 1`
but `passed + partial + failed = 0`, refuting
`total == passed_count + partial_count + failed_count`. -/
theorem c3_counterexample :
    (appSummary [errorAppResult]).total = 1 ∧
    (appSummary [errorAppResult]).passed + (appSummary [errorAppResult]).partial_ +
      (appSummary [errorAppResult]).failed = 0 ∧
    ¬ ((appSummary [errorAppResult]).total =
      (appSummary [errorAppResult]).passed + (appSummary [errorAppResult]).partial_ +
        (appSummary [errorAppResult]).failed) := by
  exact ⟨rfl, rfl, by decide⟩

/-- C3 (amended): aggregation invariants.  (1) In `upload_file`'s summary
the identity `total = passed + partial + failed` holds for every verdict
list whose `passed` fields are all canonical status *strings* (the
generative error path instead stores boolean `False`, which no bucket
counts — see the counterexample).  (2) In `upload_report`'s summary
(`backend.py` lines 262–279, the only summary in the repository that
computes an `overall_status`), the status is `"PASS"` iff no verdict has
severity `critical` together with a non-passed status. -/
theorem c3_aggregation :
    (∀ results : List AppResult,
      (∀ r ∈ results, r.passed = .ofStr "passed" ∨ r.passed = .ofStr "partial" ∨
        r.passed = .ofStr "failed") →
      (appSummary results).total =
        (appSummary results).passed + (appSummary results).partial_ +
          (appSummary results).failed) ∧
    (∀ bresults : List BResult,
      (backendSummary bresults).overall_status = "PASS" ↔
        ∀ r ∈ bresults, r.severity = "critical" → r.passed = true) := by
  constructor
  · intro results h
    induction results with
    | nil => rfl
    | cons r rs ih =>
      have hr := h r (List.mem_cons_self r rs)
      have ih' := ih fun x hx => h x (List.mem_cons_of_mem r hx)
      simp only [appSummary, List.length_cons, List.countP_cons] at ih' ⊢
      rcases hr with h1 | h1 | h1 <;> rw [h1] <;> simp <;> omega
  · intro bresults
    have hps : ∀ c : Nat, ((if c = 0 then "PASS" else "FAIL") = "PASS") ↔ c = 0 := by
      intro c
      by_cases h : c = 0
      · simp [h]
      · rw [if_neg h]
        constructor
        · intro hf; exact absurd hf (by decide)
        · intro hc0; exact absurd hc0 h
    simp only [backendSummary]
    rw [hps, List.countP_eq_zero]
    constructor
    · intro h r hr hsev
      have hnr := h r hr
      cases hb : r.passed with
      | true => rfl
      | false => exact absurd (by simp [hb, hsev]) hnr
    · intro h r hr hcontra
      rw [Bool.and_eq_true] at hcontra
      have hsev : r.severity = "critical" := by
        have := hcontra.2
        simpa using this
      have hp := h r hr hsev
      rw [hp] at hcontra
      simp at hcontra

/-- A canonical passed verdict as `upload_file` records it. -/
def okAppResult : AppResult :=
  { rule_name := "Client Name", description := "Name must match",
    passed := .ofStr "passed", reason := .str "all mentions match",
    locations := .arr [] }

/-- A critical-severity failed result as `validate_all_rules` records it. -/
def critBResult : BResult :=
  { rule_id := "R1", rule_name := "Report Scope", severity := "critical",
    passed := false, explanation := "missing" }

/-- C3, witness: the amended aggregation at concrete inputs — a
one-element canonical verdict list satisfies the counting identity, and
a list containing a critical failure does not get `overall_status`
`"PASS"`. -/
theorem c3_aggregation_witness :
    ((appSummary [okAppResult]).total =
      (appSummary [okAppResult]).passed + (appSummary [okAppResult]).partial_ +
        (appSummary [okAppResult]).failed) ∧
    ¬ ((backendSummary [critBResult]).overall_status = "PASS") := by
  constructor
  · exact c3_aggregation.1 [okAppResult]
      (by intro r hr; simp at hr; subst hr; exact Or.inl rfl)
  · intro hp
    have := (c3_aggregation.2 [critBResult]).mp hp critBResult (by simp) rfl
    exact absurd this (by decide)

lemma except_bind_pure_ok_iff {ε α β : Type} (x : Except ε α) (f : α → β) (b : β) :
    (x >>= fun a => pure (f a) : Except ε β) = .ok b ↔ ∃ a, x = .ok a ∧ f a = b := by
  cases x <;> simp [Bind.bind, Except.bind, pure, Except.pure]

/-- A validator rule whose single keyword occurs twice in the
counterexample text. -/
def repeatKwVRule : VRule :=
  { rule_id := "R4", rule_name := "Keyword coverage", check_type := "keyword",
    severity := "high", keywords := ["mfa"], min_occurrences := some 2,
    section_name := "", pattern := "", explanation := "Keywords missing" }

/-- C4, counterexample.  The claim states passed iff the number of
*distinct* keywords found reaches the threshold.  `validator.py`'s
`check_keyword` (cited by the claim alongside `backend.py`) instead
compares the *total* occurrence count with `min_occurrences`: with the
single keyword `"mfa"`, threshold 2, and a text containing `"mfa"`
twice, it passes although only 1 distinct keyword is found. -/
theorem c4_counterexample :
    check_keyword "mfa enabled; mfa enforced" repeatKwVRule = true ∧
    ((repeatKwVRule.keywords.filter fun k =>
        decide (0 < pyFindAllCount k "mfa enabled; mfa enforced")).length : Int) = 1 ∧
    ¬ ((2 : Int) ≤ 1) := by
  exact ⟨by decide, by decide, by decide⟩

/-- C4 (amended): keyword checking.  (1) `backend.py`'s
`validate_keyword` passes iff the number of distinct keywords found (at
least one case-insensitive literal occurrence each) reaches
`required_count` (default 1) — `partial` cannot arise, the result being
a boolean.  (2) `validator.py`'s `check_keyword` instead passes iff the
*total* occurrence count over all keywords reaches `min_occurrences`
(default 1).  (3) A keyword counts as found exactly when its lowercased
text occurs as a substring of the lowercased document. -/
theorem c4_keyword_checker :
    (∀ (text : String) (rule : Rule) (res : CheckResult),
      validate_keyword text rule = .ok res →
      (res.passed = true ↔
        rule.required_count.getD 1 ≤
          ((rule.keywords.filter fun k => decide (0 < pyFindAllCount k text)).length : Int))) ∧
    (∀ (text : String) (rule : VRule),
      check_keyword text rule = true ↔
        rule.min_occurrences.getD 1 ≤
          (((rule.keywords.map fun k => pyFindAllCount k text).sum : Nat) : Int)) ∧
    (∀ k text : String, 0 < pyFindAllCount k text ↔
      ∃ pre post, lowerL text.toList = pre ++ lowerL k.toList ++ post) := by
  refine ⟨?_, ?_, pyFindAllCount_pos_iff⟩
  · intro text rule res h
    unfold validate_keyword at h
    rw [except_bind_pure_ok_iff] at h
    obtain ⟨expl, _, hres⟩ := h
    rw [← hres]
    have hscan : (keywordScan text rule.keywords).1 =
        rule.keywords.filter fun k => decide (0 < pyFindAllCount k text) := by
      unfold keywordScan
      rw [keywordScan_fst]
      rfl
    simp [hscan, ge_iff_le]
  · intro text rule
    unfold check_keyword
    rw [foldl_add_eq_sum]
    simp [ge_iff_le]

/-- A `backend.py` keyword rule: three keywords, two required. -/
def c4DemoRule : Rule :=
  { rule_id := "R2", rule_name := "Security coverage", severity := "high",
    check_type := some "keyword", expected_value := "", search_pattern := "",
    keywords := ["encryption", "MFA", "firewall"], required_count := some 2,
    section_name := "",
    explanation_template := "Found \x7bfound_count\x7d keywords: \x7bfound_keywords\x7d" }

/-- The checker result `validate_keyword` produces for `c4DemoRule` on
the witness text. -/
def c4DemoRes : CheckResult :=
  { passed := false, explanation := "Found 1 keywords: encryption",
    found_keywords := some "encryption", found_count := some 1 }

/-- C4, witness: the amended statement at concrete inputs — the
`backend.py` checker fails with 1 of 2 required distinct keywords, and
the `validator.py` checker's total-occurrence comparison at the
counterexample text. -/
theorem c4_keyword_checker_witness :
    (c4DemoRes.passed = true ↔
      c4DemoRule.required_count.getD 1 ≤
        ((c4DemoRule.keywords.filter fun k =>
            decide (0 < pyFindAllCount k "uses encryption only")).length : Int)) ∧
    (check_keyword "mfa enabled; mfa enforced" repeatKwVRule = true ↔
      repeatKwVRule.min_occurrences.getD 1 ≤
        (((repeatKwVRule.keywords.map fun k =>
            pyFindAllCount k "mfa enabled; mfa enforced").sum : Nat) : Int)) := by
  constructor
  · exact c4_keyword_checker.1 "uses encryption only" c4DemoRule c4DemoRes rfl
  · exact c4_keyword_checker.2.1 "mfa enabled; mfa enforced" repeatKwVRule

/-- A rule whose explanation template references an unknown replacement
field: `str.format` raises `KeyError` on it. -/
def badTemplateRule : Rule :=
  { rule_id := "R1", rule_name := "Report Scope", severity := "critical",
    check_type := some "exact_match", expected_value := "",
    search_pattern := "SOC", keywords := [], required_count := none,
    section_name := "", explanation_template := "Found \x7bfound\x7d" }

/-- C5, counterexample.  The claim states the deterministic checkers
never throw and a malformed rule parameter degrades to a failed verdict.
But `backend.py` wraps no `try/except` around the checkers: on a rule
whose explanation template references the unknown field `{found}`,
`str.format` raises `KeyError`, which propagates out of
`validate_all_rules` (modelled as an `Except.error`), aborting the whole
batch instead of yielding any verdict. -/
theorem c5_counterexample :
    (validate_all_rules "This is a SOC 2 report" [badTemplateRule]).isOk = false := by
  decide

/-- C5 (amended): the deterministic checkers are pure, and they are total
*only for well-formed rule parameters*: when every rule has a
metacharacter-free search pattern and an explanation template whose
replacement fields are exactly those the checker supplies, evaluation
raises nothing and yields exactly one verdict per rule.  A malformed
template (and likewise an invalid regex) instead raises an exception
that propagates to the caller — see the counterexample. -/
theorem c5_checkers_total (text : String) (rules : List Rule)
    (h : ∀ r ∈ rules, ruleWellFormed r) :
    ∃ rs, validate_all_rules text rules = .ok rs ∧ rs.length = rules.length :=
  validate_all_rules_ok_of_wellFormed text rules h

/-- A well-formed exact-match rule. -/
def socScopeRule : Rule :=
  { rule_id := "R1", rule_name := "Report Scope", severity := "critical",
    check_type := some "exact_match", expected_value := "",
    search_pattern := "SOC", keywords := [], required_count := none,
    section_name := "", explanation_template := "Found: \x7bfound_value\x7d" }

/-- C5, witness: the amended totality at a concrete well-formed rule. -/
theorem c5_checkers_total_witness :
    ∃ rs, validate_all_rules "This is a SOC 2 report" [socScopeRule] = .ok rs ∧
      rs.length = [socScopeRule].length := by
  refine c5_checkers_total _ _ ?_
  intro r hr
  simp only [List.mem_singleton] at hr
  subst hr
  exact ⟨fun _ => ⟨by decide, by decide⟩,
    fun hct => absurd hct (by decide),
    fun hct => absurd hct (by decide)⟩

/-- C7: the negative-keyword checker passes iff the total number of
case-insensitive occurrences of all listed keywords is at most
`rule.get("required_count", 0)` (so the default limit is 0), and fails
otherwise — the result is a boolean, so `partial` cannot arise. -/
theorem c7_negative_keyword (text : String) (rule : Rule) (res : CheckResult)
    (h : validate_negative_keyword text rule = .ok res) :
    res.passed = true ↔
      (((rule.keywords.map fun k => pyFindAllCount k text).sum : Nat) : Int) ≤
        rule.required_count.getD 0 := by
  unfold validate_negative_keyword at h
  rw [except_bind_pure_ok_iff] at h
  obtain ⟨expl, _, hres⟩ := h
  rw [← hres]
  have hsum : totalOccCount text rule.keywords =
      ((rule.keywords.map fun k => pyFindAllCount k text).sum : Nat) := by
    unfold totalOccCount
    rw [foldl_add_eq_sum]
    simp
  simp [hsum]

/-- A negative-keyword rule with the default (absent) `required_count`. -/
def negKwRule : Rule :=
  { rule_id := "R7", rule_name := "No breach language", severity := "high",
    check_type := some "negative_keyword", expected_value := "",
    search_pattern := "", keywords := ["breach", "incident"],
    required_count := none, section_name := "",
    explanation_template := "Found \x7bfound_count\x7d occurrences" }

/-- The checker result `validate_negative_keyword` produces for
`negKwRule` on the witness text. -/
def negDemoRes : CheckResult :=
  { passed := true, explanation := "Found 0 occurrences", found_count := some 0 }

/-- C7, witness: the negative-keyword iff at a concrete clean text. -/
theorem c7_negative_keyword_witness :
    negDemoRes.passed = true ↔
      (((negKwRule.keywords.map fun k =>
          pyFindAllCount k "no problems reported").sum : Nat) : Int) ≤
        negKwRule.required_count.getD 0 :=
  c7_negative_keyword "no problems reported" negKwRule negDemoRes rfl

/-- C6, counterexample.  The claim states the fallback computes a
keyword-overlap confidence and passes iff it reaches `0.3`.  With the
single rule keyword `"encryption"` present in the text, that
spec-described confidence is `1` (so the claim demands `passed`), yet on
a connection failure `check_client_name_rule` (`backend/app.py` lines
100–114) returns the fixed verdict `satisfied = false`,
`confidence = 0.0` — no keyword overlap is computed anywhere in the
repository's fallback paths. -/
theorem c6_counterexample :
    spec_fallbackConfidence ["encryption"] "uses encryption at rest" = 1 ∧
    spec_fallbackPassed ["encryption"] "uses encryption at rest" = true ∧
    jget (check_client_name_rule (.exc "connection refused")) "satisfied" =
      some (.bool false) ∧
    jget (check_client_name_rule (.exc "connection refused")) "confidence" =
      some (.num 0) := by
  have h1 : List.countP
      (fun k => sublistSearch (lowerL k.toList) (lowerL "uses encryption at rest".toList))
      ["encryption"] = 1 := by decide
  have hc : spec_fallbackConfidence ["encryption"] "uses encryption at rest" = 1 := by
    unfold spec_fallbackConfidence
    rw [h1]
    norm_num
  refine ⟨hc, ?_, rfl, rfl⟩
  unfold spec_fallbackPassed
  rw [hc, decide_eq_true_eq]
  norm_num

/-- C6 (amended): whenever the generative client is unavailable (an
exception), the service answers with a non-success status, or no verdict
object can be recovered from a 200 response, `check_client_name_rule`
returns a fixed verdict with `satisfied = false` and `confidence = 0.0`
(plus a diagnostic `reasoning`); no keyword-overlap confidence is
computed and the fallback status is always failed, never passed or
partial. -/
theorem c6_fallback_fixed :
    (∀ msg, check_client_name_rule (.exc msg) = clientNameError msg) ∧
    (∀ (status : Nat) (body : String), status ≠ 200 →
      check_client_name_rule (.resp status body) = clientNameFallback) ∧
    (∀ body : String, extractClientJson body = none →
      check_client_name_rule (.resp 200 body) = clientNameFallback) ∧
    (∀ msg, jget (clientNameError msg) "satisfied" = some (.bool false) ∧
      jget (clientNameError msg) "confidence" = some (.num 0)) ∧
    (jget clientNameFallback "satisfied" = some (.bool false) ∧
      jget clientNameFallback "confidence" = some (.num 0)) := by
  refine ⟨fun msg => rfl, ?_, ?_, fun msg => ⟨rfl, rfl⟩, rfl, rfl⟩
  · intro status body h
    simp [check_client_name_rule, h]
  · intro body h
    simp [check_client_name_rule, h]

/-- C6, witness: the amended statement at a concrete 503 response and at
a concrete 200 response with no recoverable object. -/
theorem c6_fallback_fixed_witness :
    check_client_name_rule (.resp 503 "service unavailable") = clientNameFallback ∧
    check_client_name_rule (.resp 200 "no object in response") = clientNameFallback := by
  exact ⟨c6_fallback_fixed.2.1 503 "service unavailable" (by decide),
    c6_fallback_fixed.2.2.1 "no object in response" rfl⟩

/-- A validator section rule for the C8 counterexample. -/
def c8VRule : VRule :=
  { rule_id := "R8", rule_name := "Overview present", check_type := "section",
    severity := "medium", keywords := [], min_occurrences := none,
    section_name := "Overview", pattern := "", explanation := "Overview missing" }

/-- C8, counterexample.  The claim says a section name merely *preceded*
by the bold marker `*` passes.  In the text `"see x*Overview here"` the
name is preceded by `*` (so the claim, restated as `spec_sectionFound`,
demands passed), but `backend.py`'s regex alternative is `\*name\*` —
the name must be *enclosed* between two `*` — and `validator.py`'s
`check_section` only ever matches at the start of a line, so both
checkers fail here. -/
theorem c8_counterexample :
    spec_sectionFound "Overview" "see x*Overview here" = true ∧
    sectionHeaderFound "Overview" "see x*Overview here" = false ∧
    check_section "see x*Overview here" c8VRule = false := by
  exact ⟨by decide, by decide, by decide⟩

/-- C8 (amended): section-header checking.  (1) `backend.py`'s
`validate_section_header` passes iff, case-insensitively, the section
name starts some line (start of text or right after a newline), or
appears immediately after `#`, or appears *enclosed between two `*`
markers*.  (2) `validator.py`'s `check_section` passes iff the name
starts some line after optional leading whitespace (it recognizes no
`#`/`*` markers at all). -/
theorem c8_section_header :
    (∀ name text : String, sectionHeaderFound name text = true ↔
      ((∃ seg ∈ splitNl (lowerL text.toList), ∃ rest, seg = lowerL name.toList ++ rest) ∨
       (∃ pre post, lowerL text.toList = pre ++ ('#' :: lowerL name.toList) ++ post) ∨
       (∃ pre post, lowerL text.toList =
          pre ++ ('*' :: (lowerL name.toList ++ ['*'])) ++ post))) ∧
    (∀ (text : String) (rule : VRule), check_section text rule = true ↔
      ∃ seg ∈ splitNl (lowerL text.toList), ∃ ws rest,
        seg = ws ++ (lowerL rule.section_name.toList ++ rest) ∧
        ws.all pyIsSpace = true) := by
  constructor
  · intro name text
    simp only [sectionHeaderFound, Bool.or_eq_true, List.any_eq_true,
      isPrefixOf_eq_true_iff, sublistSearch_eq_true_iff]
    exact or_assoc
  · intro text rule
    simp only [check_section, List.any_eq_true, wsPrefixMatch_eq_true_iff]

/-- A backend rule whose `check_type` is not one of the four recognized
types. -/
def bogusBRule : Rule :=
  { rule_id := "R9", rule_name := "Bogus check", severity := "high",
    check_type := some "totally_bogus", expected_value := "",
    search_pattern := "", keywords := [], required_count := none,
    section_name := "", explanation_template := "irrelevant" }

/-- A validator rule whose `check_type` is not one of its three
recognized types. -/
def bogusVRule : VRule :=
  { rule_id := "R9", rule_name := "Bogus check", check_type := "bogus",
    severity := "high", keywords := [], min_occurrences := none,
    section_name := "", pattern := "", explanation := "Section missing" }

/-- C9, counterexample.  The claim requires reason `"Unknown check
type"` for every unknown-type rule.  `validator.py`'s `validate` (cited
by the claim alongside `backend.py`) stores only
`rule_id`/`rule_name`/`severity`/`passed` for such a rule — no reason
field at all — and the explanation it reports for any failed rule is the
rule's *configured* explanation text, not `"Unknown check type"`. -/
theorem c9_counterexample :
    validatorValidate "document text" [bogusVRule] =
      [{ rule_id := "R9", rule_name := "Bogus check", severity := "high",
         passed := false }] ∧
    validatorFailureReason bogusVRule = "Section missing" ∧
    validatorFailureReason bogusVRule ≠ "Unknown check type" := by
  exact ⟨rfl, rfl, by decide⟩

/-- C9 (amended): unknown check types are never silently skipped — both
engines produce exactly one verdict per rule, and an unknown-type rule's
verdict has status failed.  The reason `"Unknown check type"` is
produced only by `backend.py`'s `validate_all_rules`; `validator.py`'s
`validate` records the failed verdict with no such reason. -/
theorem c9_unknown_check_type :
    (∀ (text : String) (rules : List Rule) (rs : List BResult),
      validate_all_rules text rules = .ok rs →
      rs.length = rules.length ∧
      List.Forall₂ (fun rule res =>
        isUnknownType rule →
          res = { rule_id := rule.rule_id, rule_name := rule.rule_name,
                  severity := rule.severity, passed := false,
                  explanation := "Unknown check type" }) rules rs) ∧
    (∀ (text : String) (rules : List VRule),
      (validatorValidate text rules).length = rules.length ∧
      List.Forall₂ (fun rule res =>
        (rule.check_type ≠ "keyword" ∧ rule.check_type ≠ "section" ∧
          rule.check_type ≠ "exact_match") →
          res = { rule_id := rule.rule_id, rule_name := rule.rule_name,
                  severity := rule.severity, passed := false }) rules
        (validatorValidate text rules)) := by
  constructor
  · exact fun text => validate_all_rules_ok_spec text
  · intro text rules
    refine ⟨by simp [validatorValidate], ?_⟩
    apply forall₂_map_self
    intro r hu
    obtain ⟨h1, h2, h3⟩ := hu
    simp [vDispatch, h1, h2, h3]

/-- The verdict `validate_all_rules` records for `bogusBRule`. -/
def bogusBRes : BResult :=
  { rule_id := "R9", rule_name := "Bogus check", severity := "high",
    passed := false, explanation := "Unknown check type" }

/-- C9, witness: the amended statement at a concrete unknown-type
backend rule, with the batch evaluation discharged by computation. -/
theorem c9_unknown_check_type_witness :
    [bogusBRes].length = [bogusBRule].length ∧
    List.Forall₂ (fun rule res =>
      isUnknownType rule →
        res = { rule_id := rule.rule_id, rule_name := rule.rule_name,
                severity := rule.severity, passed := false,
                explanation := "Unknown check type" }) [bogusBRule] [bogusBRes] :=
  c9_unknown_check_type.1 "document text" [bogusBRule] [bogusBRes] rfl

/-- C10: compliance-score computation is division-safe: both review
endpoints guard the division with `if total_rules > 0`, returning `0`
for an empty rule list and `satisfied / total * 100` otherwise. -/
theorem c10_compliance_score (results : List ReviewResult) :
    (results = [] → reviewCompliance results = 0) ∧
    (results ≠ [] →
      reviewCompliance results =
        (satisfiedCount results : Rat) / (results.length : Rat) * 100) := by
  constructor
  · intro h
    subst h
    rfl
  · intro h
    unfold reviewCompliance complianceScore
    rw [if_pos]
    exact List.length_pos.mpr h

/-- A concrete satisfied review result. -/
def demoReviewResult : ReviewResult :=
  { rule_id := "client_name", rule_name := "Client Name",
    importance := "critical", satisfied := .bool true,
    confidence := .num (4 / 5), reasoning := .str "all mentions match" }

/-- C10, witness: the score at the empty list and at a concrete
one-element list. -/
theorem c10_compliance_score_witness :
    reviewCompliance [] = 0 ∧
    reviewCompliance [demoReviewResult] =
      (satisfiedCount [demoReviewResult] : Rat) /
        (([demoReviewResult] : List ReviewResult).length : Rat) * 100 := by
  exact ⟨(c10_compliance_score []).1 rfl,
    (c10_compliance_score [demoReviewResult]).2 (List.cons_ne_nil _ _)⟩

end SOCReview
